import Mathlib

/-!
Verification of the `drag` annotation tool: a shallow embedding of the
coordinate-mapping, annotation-state, persistence and directory-scanning
logic of `drag_generator.py` and of the path handling and JSON
classification logic of `app.py`, together with proofs of the specified
properties.

Conventions used throughout:
* Python/Qt machine integers are modelled as `Nat`/`Int` (all the modelled
  arithmetic stays far from any overflow boundary).
* Python float division followed by `int(...)` truncation on nonnegative
  operands is modelled exactly as natural floor division.
* Filesystem paths are modelled as lists of characters (`List Char`), path
  component lists as `List (List Char)`.
* Fallible operations return `Option`.
-/

namespace Drag

/-! ## Coordinate mapper

Geometry shared by `SingleImageDisplayLabel` (drag_generator.py lines
27–110) and `CombinedImageLabel` (lines 227–348): the original pixmap
dimensions and `_drawn_pixmap_rect`, the rectangle inside the label where
the scaled pixmap is drawn. -/

/-- State of a display label: original pixmap size (`QPixmap.width/height`,
0 for a null pixmap) and the drawn rectangle (`QRect`: position and size). -/
structure DisplayState where
  origW : Nat
  origH : Nat
  rectX : Int
  rectY : Int
  rectW : Nat
  rectH : Nat
deriving DecidableEq

/-- `QRect.contains(QPoint)`: Qt rectangles span `x .. x + w - 1` by
`y .. y + h - 1` (`right = left + width - 1`), edges included; an empty
rectangle contains nothing. -/
def rectContains (s : DisplayState) (p : Int × Int) : Bool :=
  decide (s.rectX ≤ p.1) && decide (p.1 ≤ s.rectX + (s.rectW : Int) - 1) &&
  decide (s.rectY ≤ p.2) && decide (p.2 ≤ s.rectY + (s.rectH : Int) - 1)

/-- `get_original_point_from_display` (drag_generator.py lines 70–92; the
combined-label copy at lines 300–327 is character-for-character the same
computation): `none` for a null pixmap, a null drawn rectangle
(`QRect.isNull`: width and height both 0) or a display point outside the
drawn rectangle; otherwise rescale by `original / drawn` per axis
(`int(x_on_scaled * scale_x)`, floor on nonnegative values) and clamp with
`max 0 (min _ (dimension - 1))`. -/
def get_original_point_from_display (s : DisplayState) (p : Int × Int) :
    Option (Nat × Nat) :=
  if s.origW == 0 || s.origH == 0 then none
  else if s.rectW == 0 && s.rectH == 0 then none
  else if !(rectContains s p) then none
  else
    let xOnScaled := (p.1 - s.rectX).toNat
    let yOnScaled := (p.2 - s.rectY).toNat
    let originalX := xOnScaled * s.origW / s.rectW
    let originalY := yOnScaled * s.origH / s.rectH
    some (max 0 (min originalX (s.origW - 1)),
          max 0 (min originalY (s.origH - 1)))

/-- `get_display_point_from_original` (drag_generator.py lines 94–110;
combined-label copy at lines 329–348): rescale an original-space point by
`drawn / original` per axis and offset by the drawn rectangle's top-left
corner. -/
def get_display_point_from_original (s : DisplayState) (q : Nat × Nat) :
    Option (Int × Int) :=
  if s.origW == 0 || s.origH == 0 then none
  else if s.rectW == 0 && s.rectH == 0 then none
  else
    let xScaled := q.1 * s.rectW / s.origW
    let yScaled := q.2 * s.rectH / s.origH
    some (s.rectX + (xScaled : Int), s.rectY + (yScaled : Int))

/-- `QSize.scaled(target, Qt.KeepAspectRatio)` as used by `update_display`
(drag_generator.py lines 52 and 280): returns the target size for a null
source size, otherwise the largest size with the source's aspect ratio
fitting in the target, computed with integer division as in Qt. -/
def sizeScaledToFit (w h tw th : Nat) : Nat × Nat :=
  if w == 0 || h == 0 then (tw, th)
  else
    let rw := th * w / h
    if rw ≤ tw then (rw, th) else (tw, tw * h / w)

/-- Down-rescaling then up-rescaling an offset never overshoots it. -/
theorem roundtrip_le (a w W : Nat) (hW : 0 < W) :
    a * W / w * w / W ≤ a := by
  have h1 : a * W / w * w ≤ a * W := Nat.div_mul_le_self _ _
  calc a * W / w * w / W ≤ a * W / W := Nat.div_le_div_right h1
    _ = a := Nat.mul_div_cancel a hW

/-- When the drawn size does not exceed the original size, down-rescaling
then up-rescaling an offset undershoots it by at most one. -/
theorem le_roundtrip_add_one (a w W : Nat) (hw : 0 < w) (hwW : w ≤ W) :
    a ≤ a * W / w * w / W + 1 := by
  have hW : 0 < W := lt_of_lt_of_le hw hwW
  rcases a with _ | n
  · exact Nat.zero_le _
  · have hmod : w * (((n + 1) * W) / w) + ((n + 1) * W) % w = (n + 1) * W :=
      Nat.div_add_mod _ _
    have hlt : ((n + 1) * W) % w < w := Nat.mod_lt _ hw
    have hcomm : w * ((n + 1) * W / w) = ((n + 1) * W / w) * w := Nat.mul_comm _ _
    have hexp : (n + 1) * W = n * W + W := by ring
    have h2 : n * W ≤ ((n + 1) * W / w) * w := by omega
    have h3 : n ≤ ((n + 1) * W / w) * w / W :=
      (Nat.le_div_iff_mul_le hW).2 h2
    omega

/-- Evaluation of the display→original conversion on an in-rectangle point
of a non-null label state. -/
theorem get_original_some (s : DisplayState) (p : Int × Int)
    (hW : 0 < s.origW) (hH : 0 < s.origH)
    (hw : 0 < s.rectW) (hh : 0 < s.rectH)
    (hin : rectContains s p = true) :
    get_original_point_from_display s p =
      some (max 0 (min ((p.1 - s.rectX).toNat * s.origW / s.rectW) (s.origW - 1)),
            max 0 (min ((p.2 - s.rectY).toNat * s.origH / s.rectH) (s.origH - 1))) := by
  have h1 : (s.origW == 0 || s.origH == 0) = false := by
    simp only [Bool.or_eq_false_iff, beq_eq_false_iff_ne]; omega
  have h2 : (s.rectW == 0 && s.rectH == 0) = false := by
    simp only [Bool.and_eq_false_iff, beq_eq_false_iff_ne]; omega
  unfold get_original_point_from_display
  simp [h1, h2, hin]

/-- The display→original conversion returns `none` on every point outside
the (possibly empty) drawn rectangle, whatever the rest of the state. -/
theorem get_original_none (s : DisplayState) (p : Int × Int)
    (hout : rectContains s p = false) :
    get_original_point_from_display s p = none := by
  unfold get_original_point_from_display
  by_cases h1 : (s.origW == 0 || s.origH == 0) = true
  · simp [h1]
  · by_cases h2 : (s.rectW == 0 && s.rectH == 0) = true
    · simp only [Bool.not_eq_true] at h1
      simp [h1, h2]
    · simp only [Bool.not_eq_true] at h1 h2
      simp [h1, h2, hout]

/-- Evaluation of the original→display conversion on a non-null label
state. -/
theorem get_display_some (s : DisplayState) (q : Nat × Nat)
    (hW : 0 < s.origW) (hH : 0 < s.origH)
    (hw : 0 < s.rectW) (hh : 0 < s.rectH) :
    get_display_point_from_original s q =
      some (s.rectX + ((q.1 * s.rectW / s.origW : Nat) : Int),
            s.rectY + ((q.2 * s.rectH / s.origH : Nat) : Int)) := by
  have h1 : (s.origW == 0 || s.origH == 0) = false := by
    simp only [Bool.or_eq_false_iff, beq_eq_false_iff_ne]; omega
  have h2 : (s.rectW == 0 && s.rectH == 0) = false := by
    simp only [Bool.and_eq_false_iff, beq_eq_false_iff_ne]; omega
  unfold get_display_point_from_original
  simp [h1, h2]

/-- C1 (amended): for every original image size, every drawn rectangle
produced by aspect-preserving scale-to-fit that does not upscale the image
(drawn size at most original size per axis), and every display point inside
the drawn rectangle, the display→original→display round trip
`toDisplay(toOriginal(p))` lands within one pixel of `p` on each axis. -/
theorem display_roundtrip_within_one_pixel
    (origW origH vpW vpH drawnW drawnH : Nat) (rectX rectY px py : Int)
    (hwh : sizeScaledToFit origW origH vpW vpH = (drawnW, drawnH))
    (hw : 0 < drawnW) (hh : 0 < drawnH)
    (hwW : drawnW ≤ origW) (hhH : drawnH ≤ origH)
    (hin : rectContains ⟨origW, origH, rectX, rectY, drawnW, drawnH⟩
      (px, py) = true) :
    ∃ q d,
      get_original_point_from_display
        ⟨origW, origH, rectX, rectY, drawnW, drawnH⟩ (px, py) = some q ∧
      get_display_point_from_original
        ⟨origW, origH, rectX, rectY, drawnW, drawnH⟩ q = some d ∧
      (d.1 - px).natAbs ≤ 1 ∧ (d.2 - py).natAbs ≤ 1 := by
  have hW : 0 < origW := lt_of_lt_of_le hw hwW
  have hH : 0 < origH := lt_of_lt_of_le hh hhH
  -- unpack the containment test
  have hc := hin
  unfold rectContains at hc
  simp only [Bool.and_eq_true, decide_eq_true_eq] at hc
  obtain ⟨⟨⟨hx1, hx2⟩, hy1⟩, hy2⟩ := hc
  -- offsets of the display point inside the rectangle
  set a := (px - rectX).toNat with ha
  set b := (py - rectY).toNat with hb
  have hax : (a : Int) = px - rectX := Int.toNat_of_nonneg (by omega)
  have hbx : (b : Int) = py - rectY := Int.toNat_of_nonneg (by omega)
  have haw : a < drawnW := by omega
  have hbh : b < drawnH := by omega
  -- the clamp is the identity on in-rectangle points
  have hclampx : a * origW / drawnW ≤ origW - 1 := by
    have h : a * origW / drawnW < origW := by
      rw [Nat.div_lt_iff_lt_mul hw]
      nlinarith
    omega
  have hclampy : b * origH / drawnH ≤ origH - 1 := by
    have h : b * origH / drawnH < origH := by
      rw [Nat.div_lt_iff_lt_mul hh]
      nlinarith
    omega
  refine ⟨(a * origW / drawnW, b * origH / drawnH),
    (rectX + ((a * origW / drawnW * drawnW / origW : Nat) : Int),
     rectY + ((b * origH / drawnH * drawnH / origH : Nat) : Int)),
    ?_, ?_, ?_, ?_⟩
  · rw [get_original_some ⟨origW, origH, rectX, rectY, drawnW, drawnH⟩
      (px, py) hW hH hw hh hin]
    simp only [ha, hb]
    rw [Nat.min_eq_left hclampx, Nat.min_eq_left hclampy]
    simp [Nat.zero_max]
  · rw [get_display_some ⟨origW, origH, rectX, rectY, drawnW, drawnH⟩
      _ hW hH hw hh]
  · have hle := roundtrip_le a drawnW origW hW
    have hge := le_roundtrip_add_one a drawnW origW hw hwW
    simp only []
    omega
  · have hle := roundtrip_le b drawnH origH hH
    have hge := le_roundtrip_add_one b drawnH origH hh hhH
    simp only []
    omega

/-- C1 witness: a 100×100 image drawn at 50×50 (viewport 50×50), display
point (10, 20): the round trip stays within one pixel per axis. -/
theorem display_roundtrip_within_one_pixel_witness :
    ∃ q d, get_original_point_from_display ⟨100, 100, 0, 0, 50, 50⟩ (10, 20) = some q ∧
      get_display_point_from_original ⟨100, 100, 0, 0, 50, 50⟩ q = some d ∧
      (d.1 - 10).natAbs ≤ 1 ∧ (d.2 - 20).natAbs ≤ 1 :=
  display_roundtrip_within_one_pixel 100 100 50 50 50 50 0 0 10 20
    (by decide) (by decide) (by decide) (by decide) (by decide) (by decide)

/-- C1 counterexample: a 1×1 original in a 3×3 viewport is scale-to-fit
upscaled to a 3×3 drawn rectangle (at position (0,0)); the in-rectangle
display point (2,2) round-trips to (0,0), two pixels away per axis, so the
unamended one-pixel bound is false. -/
theorem display_roundtrip_counterexample :
    sizeScaledToFit 1 1 3 3 = (3, 3) ∧
    rectContains ⟨1, 1, 0, 0, 3, 3⟩ (2, 2) = true ∧
    get_original_point_from_display ⟨1, 1, 0, 0, 3, 3⟩ (2, 2) = some (0, 0) ∧
    get_display_point_from_original ⟨1, 1, 0, 0, 3, 3⟩ (0, 0) = some (0, 0) ∧
    ¬(((0 : Int) - 2).natAbs ≤ 1 ∧ ((0 : Int) - 2).natAbs ≤ 1) := by
  decide

/-- C4: on a non-null label state, the display→original conversion returns
`none` exactly on display points strictly outside the drawn rectangle, and
on points inside it returns the floor-rescaled coordinate clamped per axis
to `[0, originalDimension - 1]`. -/
theorem get_original_point_from_display_spec (s : DisplayState) (px py : Int)
    (hW : 0 < s.origW) (hH : 0 < s.origH)
    (hw : 0 < s.rectW) (hh : 0 < s.rectH) :
    (rectContains s (px, py) = false →
      get_original_point_from_display s (px, py) = none) ∧
    (rectContains s (px, py) = true →
      get_original_point_from_display s (px, py) =
        some (max 0 (min ((px - s.rectX).toNat * s.origW / s.rectW) (s.origW - 1)),
              max 0 (min ((py - s.rectY).toNat * s.origH / s.rectH) (s.origH - 1)))) :=
  ⟨get_original_none s (px, py), get_original_some s (px, py) hW hH hw hh⟩

/-- C4 witness: a 100×80 image drawn in a 50×40 rectangle at (5, 7); the
point (4, 7) left of the rectangle maps to `none`, and a symmetric instance
of the theorem applies at an inside point. -/
theorem get_original_point_from_display_spec_witness :
    get_original_point_from_display ⟨100, 80, 5, 7, 50, 40⟩ (4, 7) = none :=
  (get_original_point_from_display_spec ⟨100, 80, 5, 7, 50, 40⟩ 4 7
    (by decide) (by decide) (by decide) (by decide)).1 (by decide)

/-! ## Hit-testing and interaction sessions -/

/-- Hit test applied to one annotated point via its display projection:
`p_display and (event.pos() - p_display).manhattanLength() < 15`
(drag_generator.py lines 123–127, 136–138 and 361–365).  A point whose
display projection is `None` cannot be hit; PyQt `QPoint`s themselves are
always truthy. -/
def hitsPoint (ds : DisplayState) (pos : Int × Int) (q : Nat × Nat) : Bool :=
  match get_display_point_from_original ds q with
  | none => false
  | some d => decide ((pos.1 - d.1).natAbs + (pos.2 - d.2).natAbs < 15)

/-- The `for i, p_orig in enumerate(...)` search loops: index of the first
element satisfying the predicate (`-1` sentinel modelled as `none`). -/
def findFirstIdx (p : α → Bool) : List α → Option Nat
  | [] => none
  | a :: as => if p a then some 0 else (findFirstIdx p as).map (· + 1)

/-- First point (in insertion order) hit by a click position. -/
def firstHitIndex (ds : DisplayState) (pos : Int × Int)
    (pts : List (Nat × Nat)) : Option Nat :=
  findFirstIdx (hitsPoint ds pos) pts

theorem findFirstIdx_lt_length {p : α → Bool} {l : List α} {i : Nat}
    (h : findFirstIdx p l = some i) : i < l.length := by
  induction l generalizing i with
  | nil => simp [findFirstIdx] at h
  | cons a as ih =>
    unfold findFirstIdx at h
    by_cases hp : p a = true
    · rw [if_pos hp] at h
      injection h with h
      simp only [List.length_cons]
      omega
    · rw [if_neg hp, Option.map_eq_some'] at h
      obtain ⟨j, hj, hji⟩ := h
      have := ih hj
      simp only [List.length_cons]
      omega

/-- State of a `SingleImageDisplayLabel` point-annotation session: display
geometry, `current_points`, `dragging_point_index` and
`point_mode_enabled`. -/
structure PointSession where
  disp : DisplayState
  current_points : List (Nat × Nat)
  dragging_point_index : Option Nat
  point_mode_enabled : Bool
deriving DecidableEq

/-- Buttons handled by `mousePressEvent`. -/
inductive PressButton where
  | left
  | right
deriving DecidableEq

/-- `SingleImageDisplayLabel.mousePressEvent` (drag_generator.py lines
112–142): no-op when point mode is off, the pixmap is null, or the click
does not map into the image.  Left click: select the first hit point for
dragging, else append a new point.  Right click: remove the first hit point
(`self.current_points.pop(i)`), else no-op. -/
def singleMousePress (s : PointSession) (btn : PressButton)
    (pos : Int × Int) : PointSession :=
  if !s.point_mode_enabled || (s.disp.origW == 0 || s.disp.origH == 0) then s
  else
    match get_original_point_from_display s.disp pos with
    | none => s
    | some originalPos =>
      match btn with
      | .left =>
        match firstHitIndex s.disp pos s.current_points with
        | some i => { s with dragging_point_index := some i }
        | none => { s with dragging_point_index := none,
                           current_points := s.current_points ++ [originalPos] }
      | .right =>
        match firstHitIndex s.disp pos s.current_points with
        | some i => { s with current_points := s.current_points.eraseIdx i }
        | none => s

/-- C8: in the point annotation session, a right click hitting an existing
point (first hit in insertion order under the 15-pixel Manhattan threshold)
removes exactly that point: the list becomes its prefix before the hit
index followed by its suffix after it (relative order preserved, later
indices shifted down by one) and the length drops by exactly one. -/
theorem single_right_click_removes_point
    (s : PointSession) (pos : Int × Int) (i : Nat)
    (hen : s.point_mode_enabled = true)
    (hW : 0 < s.disp.origW) (hH : 0 < s.disp.origH)
    (hmap : get_original_point_from_display s.disp pos ≠ none)
    (hhit : firstHitIndex s.disp pos s.current_points = some i) :
    (singleMousePress s .right pos).current_points =
      s.current_points.take i ++ s.current_points.drop (i + 1) ∧
    (singleMousePress s .right pos).current_points.length + 1 =
      s.current_points.length := by
  have hilt : i < s.current_points.length := findFirstIdx_lt_length hhit
  obtain ⟨v, hv⟩ := Option.ne_none_iff_exists'.1 hmap
  have hguard : (!s.point_mode_enabled ||
      (s.disp.origW == 0 || s.disp.origH == 0)) = false := by
    simp only [hen, Bool.not_true, Bool.false_or, Bool.or_eq_false_iff,
      beq_eq_false_iff_ne]
    omega
  have hres : (singleMousePress s .right pos).current_points =
      s.current_points.eraseIdx i := by
    unfold singleMousePress
    rw [hguard, hv, hhit]
    rfl
  rw [hres, List.eraseIdx_eq_take_drop_succ]
  refine ⟨rfl, ?_⟩
  rw [← List.eraseIdx_eq_take_drop_succ]
  exact List.length_eraseIdx_add_one hilt

/-- C8 witness: a 100×100 image drawn 1:1 at the origin with points
(10,10) and (30,30); a right click at (11, 11) removes the first point and
keeps the second. -/
theorem single_right_click_removes_point_witness :
    (singleMousePress ⟨⟨100, 100, 0, 0, 100, 100⟩, [(10, 10), (30, 30)],
        none, true⟩ .right (11, 11)).current_points =
      ([(10, 10), (30, 30)] : List (Nat × Nat)).take 0 ++
        ([(10, 10), (30, 30)] : List (Nat × Nat)).drop 1 ∧
    (singleMousePress ⟨⟨100, 100, 0, 0, 100, 100⟩, [(10, 10), (30, 30)],
        none, true⟩ .right (11, 11)).current_points.length + 1 = 2 :=
  single_right_click_removes_point
    ⟨⟨100, 100, 0, 0, 100, 100⟩, [(10, 10), (30, 30)], none, true⟩
    (11, 11) 0 rfl (by decide) (by decide) (by decide) (by decide)

/-- State of a `CombinedImageLabel` mask-annotation session (the combined
pixmap's size is the first pixmap's size; a null combined pixmap is one
with a zero dimension). -/
structure MaskSession where
  disp : DisplayState
  mask_points : List (Nat × Nat)
  dragging_point_index : Option Nat
  mask_mode_enabled : Bool
deriving DecidableEq

/-- The interaction events of the mask session (drag_generator.py lines
239–455): a left-button press (the only button `mousePressEvent` handles),
a mouse move with the left-button-held flag, a release, `reset_mask`, and
`set_images` (which installs a new combined pixmap and clears the mask). -/
inductive MaskEvent where
  | press (pos : Int × Int)
  | move (pos : Int × Int) (leftHeld : Bool)
  | release
  | reset
  | setImages (newDisp : DisplayState)
  | setMode (enabled : Bool)
deriving DecidableEq

/-- One step of the mask session: `CombinedImageLabel.mousePressEvent`
(lines 350–374), `mouseMoveEvent` (376–400), `mouseReleaseEvent` (402–407),
`reset_mask` (447–451), `set_images` (239–247) and
`set_mask_mode_enabled` (440–445). -/
def maskStep (s : MaskSession) (e : MaskEvent) : MaskSession :=
  match e with
  | .press pos =>
    if !s.mask_mode_enabled || (s.disp.origW == 0 || s.disp.origH == 0) then s
    else
      match get_original_point_from_display s.disp pos with
      | none => s
      | some originalPos =>
        match firstHitIndex s.disp pos s.mask_points with
        | some i => { s with dragging_point_index := some i }
        | none =>
          if s.mask_points.length < 4 then
            { s with dragging_point_index := none,
                     mask_points := s.mask_points ++ [originalPos] }
          else { s with dragging_point_index := none }
  | .move pos leftHeld =>
    if !s.mask_mode_enabled || (s.disp.origW == 0 || s.disp.origH == 0) then s
    else
      match s.dragging_point_index with
      | some i =>
        if leftHeld then
          match get_original_point_from_display s.disp pos with
          | none => s
          | some np => { s with mask_points := s.mask_points.set i np }
        else s
      | none => s
  | .release =>
    if !s.mask_mode_enabled then s else { s with dragging_point_index := none }
  | .reset => { s with mask_points := [] }
  | .setImages nd => { s with disp := nd, mask_points := [] }
  | .setMode enabled => { s with mask_mode_enabled := enabled }

/-- C5: the mask session never holds more than 4 points — every session
event preserves `length ≤ 4`, and a left press that hits no existing handle
while 4 points are present leaves the point list unchanged. -/
theorem mask_session_at_most_four_points :
    (∀ (s : MaskSession) (e : MaskEvent), s.mask_points.length ≤ 4 →
      (maskStep s e).mask_points.length ≤ 4) ∧
    (∀ (s : MaskSession) (pos : Int × Int), s.mask_points.length = 4 →
      firstHitIndex s.disp pos s.mask_points = none →
      (maskStep s (.press pos)).mask_points = s.mask_points) := by
  constructor
  · rintro s e hle
    cases e with
    | press pos =>
      simp only [maskStep]
      split
      · exact hle
      split
      · exact hle
      split
      · exact hle
      split
      · simp only [List.length_append, List.length_cons, List.length_nil]
        omega
      · exact hle
    | move pos leftHeld =>
      simp only [maskStep]
      split
      · exact hle
      split
      · split
        · split
          · exact hle
          · simpa using hle
        · exact hle
      · exact hle
    | release =>
      simp only [maskStep]
      split <;> exact hle
    | reset => simp [maskStep]
    | setImages nd => simp [maskStep]
    | setMode enabled => simpa [maskStep] using hle
  · rintro s pos h4 hnohit
    simp only [maskStep]
    split
    · rfl
    split
    · rfl
    · simp only [hnohit]
      rw [if_neg (by omega)]

/-- C5 witness: both clauses applied to concrete sessions (a press onto an
empty session keeps the bound; a press on a full 4-point session away from
every handle leaves the points unchanged). -/
theorem mask_session_at_most_four_points_witness :
    (maskStep ⟨⟨100, 100, 0, 0, 100, 100⟩, [], none, true⟩
        (.press (10, 10))).mask_points.length ≤ 4 ∧
    (maskStep ⟨⟨100, 100, 0, 0, 100, 100⟩,
        [(40, 40), (60, 40), (60, 60), (40, 60)], none, true⟩
        (.press (1, 1))).mask_points =
      [(40, 40), (60, 40), (60, 60), (40, 60)] :=
  ⟨mask_session_at_most_four_points.1
      ⟨⟨100, 100, 0, 0, 100, 100⟩, [], none, true⟩ (.press (10, 10))
      (by decide),
   mask_session_at_most_four_points.2
      ⟨⟨100, 100, 0, 0, 100, 100⟩,
        [(40, 40), (60, 40), (60, 60), (40, 60)], none, true⟩ (1, 1)
      (by decide) (by decide)⟩

/-! ## Save gate (`ImageSelectionWindow.check_save_button_status`) -/

/-- The fields of `ImageSelectionWindow` consulted by the save gate and the
save action: the two chosen frame paths (`None` initially) and the three
point lists, all in original-image coordinates. -/
structure AnnotationState where
  image_path_frame1 : Option (List Char)
  image_path_frame2 : Option (List Char)
  mask_points_on_combined : List (Nat × Nat)
  source_points_on_frame1 : List (Nat × Nat)
  target_points_on_frame2 : List (Nat × Nat)
deriving DecidableEq

/-- Python truthiness of an `Optional[str]` path: `None` and the empty
string are falsy. -/
def pyTruthyPath : Option (List Char) → Bool
  | none => false
  | some s => !(s.isEmpty)

/-- `check_save_button_status` (drag_generator.py lines 1028–1035), as the
predicate deciding whether the save button is enabled. -/
def check_save_button_status (st : AnnotationState) : Bool :=
  pyTruthyPath st.image_path_frame1 && pyTruthyPath st.image_path_frame2 &&
  st.mask_points_on_combined.length == 4 &&
  decide (0 < st.source_points_on_frame1.length) &&
  st.source_points_on_frame1.length == st.target_points_on_frame2.length

/-- C3: the save-readiness predicate holds iff both frames are chosen, the
mask has exactly 4 points, the source list is nonempty and the source and
target lists have equal length; in particular it is false for a 3-point
mask, false for mismatched source/target lengths, and true with both
frames, a 4-point mask and one source and one target point. -/
theorem check_save_button_status_spec :
    (∀ st : AnnotationState, check_save_button_status st = true ↔
      (pyTruthyPath st.image_path_frame1 = true ∧
       pyTruthyPath st.image_path_frame2 = true ∧
       st.mask_points_on_combined.length = 4 ∧
       0 < st.source_points_on_frame1.length ∧
       st.source_points_on_frame1.length = st.target_points_on_frame2.length)) ∧
    (∀ st : AnnotationState, st.mask_points_on_combined.length = 3 →
      check_save_button_status st = false) ∧
    check_save_button_status
      ⟨some "a.png".data, some "b.png".data, [(0,0),(1,0),(1,1),(0,1)],
       [(1,1),(2,2)], [(3,3)]⟩ = false ∧
    check_save_button_status
      ⟨some "a.png".data, some "b.png".data, [(0,0),(1,0),(1,1),(0,1)],
       [(1,1)], [(3,3)]⟩ = true := by
  refine ⟨?_, ?_, by decide, by decide⟩
  · intro st
    unfold check_save_button_status
    simp only [Bool.and_eq_true, beq_iff_eq, decide_eq_true_eq]
    tauto
  · intro st h3
    unfold check_save_button_status
    simp [h3]

/-- C3 witness: the 3-point-mask clause of the theorem applied to a
concrete state. -/
theorem check_save_button_status_spec_witness :
    check_save_button_status
      ⟨some "a.png".data, some "b.png".data, [(0,0),(1,0),(1,1)],
       [(1,1)], [(1,1)]⟩ = false :=
  check_save_button_status_spec.2.1
    ⟨some "a.png".data, some "b.png".data, [(0,0),(1,0),(1,1)],
     [(1,1)], [(1,1)]⟩ rfl

/-! ## POSIX path machinery

`app.py` and the persistence code manipulate paths with `os.path`
(`abspath`, `relpath`, `join`, `basename`, `dirname`, `splitext`) on a
POSIX filesystem.  Paths are character lists, component lists are lists of
nonempty character lists, and the current working directory is given as an
absolute, normalized component list. -/

/-- Concatenation of the images of a function (the `List.flatMap` pattern,
defined by recursion for easy reasoning). -/
def concatMap (f : α → List β) : List α → List β
  | [] => []
  | a :: as => f a ++ concatMap f as

/-- Split a path into its nonempty `/`-separated components
(accumulator-based scan). -/
def splitCompsAux : List Char → List Char → List (List Char)
  | [], acc => if acc.isEmpty then [] else [acc.reverse]
  | c :: cs, acc =>
    if c = '/' then
      if acc.isEmpty then splitCompsAux cs []
      else acc.reverse :: splitCompsAux cs []
    else splitCompsAux cs (c :: acc)

def splitComps (p : List Char) : List (List Char) :=
  splitCompsAux p []

/-- `os.path.normpath` on the components of an absolute path: `.` is
dropped, `..` removes the previous component (and is dropped at the
root). -/
def normAbsComps (cs : List (List Char)) : List (List Char) :=
  cs.foldl (fun acc c =>
    if c = ['.'] then acc
    else if c = ['.', '.'] then acc.dropLast
    else acc ++ [c]) []

/-- `os.path.abspath` as components: an absolute path is normalized as it
is, a relative one is joined onto the working directory first. -/
def absComps (cwd : List (List Char)) (p : List Char) : List (List Char) :=
  match p with
  | '/' :: _ => normAbsComps (splitComps p)
  | _ => normAbsComps (cwd ++ splitComps p)

/-- Join absolute components back into the path string `os.path.abspath`
returns (leading `/`, `/` alone for the root). -/
def joinCompsSlash : List (List Char) → List Char
  | [] => []
  | c :: cs => '/' :: c ++ joinCompsSlash cs

def joinAbs (cs : List (List Char)) : List Char :=
  if cs = [] then ['/'] else joinCompsSlash cs

def abspathChars (cwd : List (List Char)) (p : List Char) : List Char :=
  joinAbs (absComps cwd p)

/-- `os.path.join(a, b)` on POSIX: an absolute `b` wins; otherwise `b` is
appended to `a` with a separator unless `a` is empty or already ends in
one. -/
def posixJoin (a b : List Char) : List Char :=
  match b with
  | '/' :: _ => b
  | _ =>
    if a = [] then b
    else if a.getLast? = some '/' then a ++ b
    else a ++ '/' :: b

/-- `str.startswith` on character lists. -/
def startsWithChars (s pre : List Char) : Bool :=
  List.isPrefixOf pre s

/-- Modelled from the spec's words ("any update path resolving outside the
configured data root"): a path resolves inside a root when the root's
absolute components are a componentwise prefix of the path's absolute
components. -/
def resolvesInside (cwd : List (List Char)) (root p : List Char) : Bool :=
  List.isPrefixOf (absComps cwd root) (absComps cwd p)

theorem joinCompsSlash_append (xs ys : List (List Char)) :
    joinCompsSlash (xs ++ ys) = joinCompsSlash xs ++ joinCompsSlash ys := by
  induction xs with
  | nil => simp [joinCompsSlash]
  | cons c cs ih => simp [joinCompsSlash, ih]

/-- Componentwise prefixes become string prefixes of the rendered absolute
paths. -/
theorem joinAbs_startsWith (xs ys : List (List Char)) :
    startsWithChars (joinAbs (xs ++ ys)) (joinAbs xs) = true := by
  unfold startsWithChars
  rw [List.isPrefixOf_iff_prefix]
  rcases xs with _ | ⟨c, cs⟩
  · rcases ys with _ | ⟨d, ds⟩
    · simp [joinAbs]
    · simp only [List.nil_append]
      unfold joinAbs
      rw [if_pos rfl, if_neg (by simp)]
      exact ⟨d ++ joinCompsSlash ds, rfl⟩
  · have h1 : (c :: cs : List (List Char)) ≠ [] := by simp
    have h2 : (c :: cs) ++ ys ≠ ([] : List (List Char)) := by simp
    unfold joinAbs
    rw [if_neg h1, if_neg h2, joinCompsSlash_append]
    exact ⟨joinCompsSlash ys, rfl⟩

/-! ## `app.py` viewer: caption updates and image description -/

/-- A parsed annotation JSON object, restricted to the keys `app.py`
consults: the two frame image fields and the optional caption. -/
structure JsonObj where
  frame1_image : Option (List Char)
  frame2_image : Option (List Char)
  caption : Option (List Char)
deriving DecidableEq

/-- Lookup in an abstract path→object store (the files `open` can read). -/
def lookupObj : List (List Char × JsonObj) → List Char → Option JsonObj
  | [], _ => none
  | (q, o) :: rest, p => if q = p then some o else lookupObj rest p

/-- Replace-or-add write to the path→object store. -/
def writeObj : List (List Char × JsonObj) → List Char → JsonObj →
    List (List Char × JsonObj)
  | [], p, o => [(p, o)]
  | (q, o0) :: rest, p, o =>
    if q = p then (p, o) :: rest else (q, o0) :: writeObj rest p o

/-- HTTP-level outcomes of `update_caption`. -/
inductive UpdateResult where
  | invalidData
  | accessDenied
  | updated
  | failure
deriving DecidableEq

/-- `BASE_DIR = 'data'` (app.py line 10). -/
def BASE_DIR : List Char := "data".data

/-- The access check of `update_caption` (app.py line 159):
`os.path.abspath(json_file_path).startswith(os.path.abspath(BASE_DIR))`. -/
def update_caption_allows (cwd : List (List Char)) (p : List Char) : Bool :=
  startsWithChars (abspathChars cwd p) (abspathChars cwd BASE_DIR)

/-- `update_caption` (app.py lines 149–170) over an abstract store: reject
falsy paths and missing captions (400), reject paths failing the
`startswith` test (403, nothing written), report open failures (500),
otherwise patch the `caption` field in place (read-modify-write of the
same path). -/
def update_caption (cwd : List (List Char))
    (fs : List (List Char × JsonObj))
    (json_file_path : Option (List Char)) (caption : Option (List Char)) :
    List (List Char × JsonObj) × UpdateResult :=
  match json_file_path, caption with
  | none, _ => (fs, .invalidData)
  | some [], _ => (fs, .invalidData)
  | some _, none => (fs, .invalidData)
  | some p, some c =>
    if !(update_caption_allows cwd p) then (fs, .accessDenied)
    else
      match lookupObj fs p with
      | none => (fs, .failure)
      | some o => (writeObj fs p { o with caption := some c }, .updated)

/-- C2 (amended): the caption update rejects with access denied — writing
nothing — exactly the paths whose absolute form does not *start with* the
data root's absolute form as a string; every path resolving inside the
data root passes the check, but the prefix test also admits paths outside
the root that merely share the string prefix (see the counterexample). -/
theorem update_caption_access_check :
    (∀ (cwd : List (List Char)) (fs : List (List Char × JsonObj))
        (p c : List Char), p ≠ [] →
      update_caption_allows cwd p = false →
      update_caption cwd fs (some p) (some c) = (fs, .accessDenied)) ∧
    (∀ (cwd : List (List Char)) (p : List Char),
      resolvesInside cwd BASE_DIR p = true →
      update_caption_allows cwd p = true) := by
  constructor
  · intro cwd fs p c hp hdeny
    cases p with
    | nil => exact absurd rfl hp
    | cons q qs =>
      simp only [update_caption]
      rw [hdeny]
      rfl
  · intro cwd p hin
    unfold resolvesInside at hin
    rw [List.isPrefixOf_iff_prefix] at hin
    obtain ⟨t, ht⟩ := hin
    unfold update_caption_allows abspathChars
    rw [← ht]
    exact joinAbs_startsWith _ _

/-- C2 witness: with the working directory `/srv`, the path
`data/x/a.json` (inside the data root) passes the access check. -/
theorem update_caption_access_check_witness :
    update_caption_allows ["srv".data] "data/x/a.json".data = true :=
  update_caption_access_check.2 ["srv".data] "data/x/a.json".data (by decide)

/-- C2 counterexample: with working directory `/srv`, the path
`database/evil.json` resolves to `/srv/database/evil.json`, outside the
data root `/srv/data` — yet `'/srv/database/evil.json'.startswith('/srv/data')`
holds, so the update is *not* rejected: it patches the file and reports
success.  The claim "paths resolving outside the data root are rejected
and nothing is written" is therefore false. -/
theorem update_caption_counterexample :
    resolvesInside ["srv".data] BASE_DIR "database/evil.json".data = false ∧
    update_caption ["srv".data]
        [("database/evil.json".data,
          ⟨some "f1.png".data, some "f2.png".data, none⟩)]
        (some "database/evil.json".data) (some "hi".data) =
      ([("database/evil.json".data,
         ⟨some "f1.png".data, some "f2.png".data, some "hi".data⟩)],
       .updated) := by
  constructor
  · decide
  · decide

/-- Length of the longest common prefix of two component lists (what
`os.path.relpath` computes on the two absolute component lists). -/
def commonPrefixLen : List (List Char) → List (List Char) → Nat
  | a :: as, b :: bs => if a = b then commonPrefixLen as bs + 1 else 0
  | _, _ => 0

/-- `os.path.relpath` on absolute component lists: `..` for every
remaining component of the start, then the remainder of the path. -/
def relpathComps (pathC startC : List (List Char)) : List (List Char) :=
  let i := commonPrefixLen pathC startC
  List.replicate (startC.length - i) "..".data ++ pathC.drop i

/-- Join relative components with `/` (no leading separator). -/
def joinRel : List (List Char) → List Char
  | [] => []
  | [c] => c
  | c :: cs => c ++ '/' :: joinRel cs

/-- `os.path.relpath(path, start)` rendered as a string (`.` when the two
coincide). -/
def relpathChars (pathC startC : List (List Char)) : List Char :=
  let r := relpathComps pathC startC
  if r = [] then ['.'] else joinRel r

/-- `.replace('\\', '/')` (a no-op on POSIX-joined paths, applied for
Windows-path normalization in app.py lines 32–33). -/
def replaceBackslashes (s : List Char) : List Char :=
  s.map (fun c => if c = '\\' then '/' else c)

/-- One file met by the `os.walk(BASE_DIR)` traversal of `find_files`:
the directory holding it (as components relative to `BASE_DIR`, `[]` for
the base itself), its name, and the result of attempting `json.load` on it
(`none` for unreadable or malformed JSON). -/
structure FsEntry where
  dirComps : List (List Char)
  fileName : List Char
  parsed : Option JsonObj
deriving DecidableEq

/-- The record `find_files` appends for a kept file: the two image fields
resolved relative to the base directory, the raw joined JSON path, the
holding directory's base name, and the caption field as parsed. -/
structure ViewRecord where
  frame1_image : List Char
  frame2_image : List Char
  json_file_path : List Char
  directory_name : List Char
  caption : Option (List Char)
deriving DecidableEq

/-- `os.path.relpath(os.path.join(root, field), start=BASE_DIR).replace('\\', '/')`
for a walk root `BASE_DIR/<dirComps>` (app.py lines 32–33). -/
def resolveImageField (cwd : List (List Char)) (dirComps : List (List Char))
    (field : List Char) : List Char :=
  let root := joinRel (BASE_DIR :: dirComps)
  let joined := posixJoin root field
  replaceBackslashes (relpathChars (absComps cwd joined) (absComps cwd BASE_DIR))

/-- Truthiness of `data.get('caption')`: a present, nonempty caption. -/
def captionTruthy (o : JsonObj) : Bool :=
  match o.caption with
  | some (_ :: _) => true
  | _ => false

/-- `file.endswith('.json')`. -/
def endsWithJson (n : List Char) : Bool :=
  List.isSuffixOf ".json".data n

/-- The record built for entry `e` with image fields `f1`, `f2` parsed
from object `o` (app.py lines 32–35). -/
def mkViewRecord (cwd : List (List Char)) (e : FsEntry) (o : JsonObj)
    (f1 f2 : List Char) : ViewRecord :=
  { frame1_image := resolveImageField cwd e.dirComps f1,
    frame2_image := resolveImageField cwd e.dirComps f2,
    json_file_path := posixJoin (joinRel (BASE_DIR :: e.dirComps)) e.fileName,
    directory_name := (BASE_DIR :: e.dirComps).getLastD [],
    caption := o.caption }

/-- `find_files` (app.py lines 19–43) over the walked file sequence: for
every `.json` file that parses and has both `frame1_image` and
`frame2_image` keys, build the resolved record and append it to the
captioned bucket when the caption is truthy, else to the uncaptioned one;
parse failures are skipped (`except ...: continue`), and nothing is
written anywhere. -/
def find_files (cwd : List (List Char)) :
    List FsEntry → List ViewRecord × List ViewRecord
  | [] => ([], [])
  | e :: rest =>
    let acc := find_files cwd rest
    if endsWithJson e.fileName then
      match e.parsed with
      | none => acc
      | some o =>
        match o.frame1_image, o.frame2_image with
        | some f1, some f2 =>
          if captionTruthy o then (acc.1, mkViewRecord cwd e o f1 f2 :: acc.2)
          else (mkViewRecord cwd e o f1 f2 :: acc.1, acc.2)
        | _, _ => acc
    else acc

/-- Modelled from the spec's words (§4.4 `classifyAnnotations`): keep
exactly the `.json` files that parse and carry both frame keys, resolve
the two image fields relative to the base directory (normalized to
forward slashes), and bucket by presence of a nonempty caption. -/
def classifyAnnotations (cwd : List (List Char)) (entries : List FsEntry) :
    List ViewRecord × List ViewRecord :=
  let kept := entries.filterMap (fun e =>
    if endsWithJson e.fileName then
      match e.parsed with
      | some o =>
        match o.frame1_image, o.frame2_image with
        | some f1, some f2 => some (mkViewRecord cwd e o f1 f2, captionTruthy o)
        | _, _ => none
      | none => none
    else none)
  ((kept.filter (fun rc => !rc.2)).map Prod.fst,
   (kept.filter (fun rc => rc.2)).map Prod.fst)

/-- C6: the annotation classifier equals its specification: walking the
file sequence it keeps exactly the parseable `.json` files holding both
frame keys (malformed files are skipped without failing), resolves the
image fields relative to the base directory with forward slashes, and
splits the kept records into uncaptioned and captioned buckets by the
presence of a nonempty caption — a pure read-side classification (the
model writes to no store at all). -/
theorem find_files_matches_classifyAnnotations
    (cwd : List (List Char)) (entries : List FsEntry) :
    find_files cwd entries = classifyAnnotations cwd entries := by
  induction entries with
  | nil => rfl
  | cons e rest ih =>
    unfold find_files classifyAnnotations
    unfold classifyAnnotations at ih
    rw [List.filterMap_cons]
    by_cases hj : endsWithJson e.fileName = true
    · cases hp : e.parsed with
      | none => simp [hj, hp, ih]
      | some o =>
        cases hf1 : o.frame1_image with
        | none => simp [hj, hp, hf1, ih]
        | some f1 =>
          cases hf2 : o.frame2_image with
          | none => simp [hj, hp, hf1, hf2, ih]
          | some f2 =>
            by_cases hc : captionTruthy o = true
            · simp [hj, hp, hf1, hf2, hc, ih]
            · simp only [Bool.not_eq_true] at hc
              simp [hj, hp, hf1, hf2, hc, ih]
    · simp only [Bool.not_eq_true] at hj
      simp [hj, ih]

/-- `STATIC_DATA_DIR = 'static/data'` (app.py line 11). -/
def STATIC_DATA_DIR : List Char := "static/data".data

/-- `describe_images` (app.py lines 71–102): the two files opened are the
raw joins of the static data directory with the client-supplied paths;
the endpoint has no containment or access-denied branch at all. -/
def describe_images_opened (image1_path image2_path : List Char) :
    List Char × List Char :=
  (posixJoin STATIC_DATA_DIR image1_path, posixJoin STATIC_DATA_DIR image2_path)

/-- C10: the image-description endpoint opens exactly the join of the
static data root with each client-supplied path, with no containment
check; in particular the input `../../etc/passwd` yields an opened path
that resolves outside the static data root (working directory `/srv`)
without being rejected. -/
theorem describe_images_no_containment :
    (∀ p q : List Char,
      (describe_images_opened p q).1 = posixJoin STATIC_DATA_DIR p ∧
      (describe_images_opened p q).2 = posixJoin STATIC_DATA_DIR q) ∧
    describe_images_opened "../../etc/passwd".data "../../etc/passwd".data =
      ("static/data/../../etc/passwd".data, "static/data/../../etc/passwd".data) ∧
    resolvesInside ["srv".data] STATIC_DATA_DIR
      (posixJoin STATIC_DATA_DIR "../../etc/passwd".data) = false := by
  refine ⟨fun p q => ⟨rfl, rfl⟩, by decide, by decide⟩

/-! ## Persistence (`ImageSelectionWindow.save_coordinates_to_json`) -/

/-- `os.path.basename` on POSIX: the part after the last `/`. -/
def posixBasename (p : List Char) : List Char :=
  ((p.reverse.takeWhile (fun c => c ≠ '/')).reverse)

/-- `os.path.dirname` on POSIX: the part up to the last `/`, with trailing
separators stripped unless the result is all separators. -/
def posixDirname (p : List Char) : List Char :=
  let head := (p.reverse.dropWhile (fun c => c ≠ '/')).reverse
  if head.isEmpty then head
  else if head.all (fun c => c = '/') then head
  else (head.reverse.dropWhile (fun c => c = '/')).reverse

/-- Index of the last `.` of a file name, when present. -/
def lastDotIdx (name : List Char) : Option Nat :=
  (findFirstIdx (fun c => c = '.') name.reverse).map
    (fun j => name.length - 1 - j)

/-- The stem of `os.path.splitext` on a bare file name: cut at the last
`.` provided some non-dot character stands before it (so `.bashrc` and
`..` keep their dots). -/
def splitextStem (name : List Char) : List Char :=
  match lastDotIdx name with
  | none => name
  | some d =>
    if (name.take d).any (fun c => c ≠ '.') then name.take d else name

/-- Replace-or-add write to an abstract path→content store (the effect of
`open(path, 'w')` + `json.dump`). -/
def fsWriteStr : List (List Char × List Char) → List Char → List Char →
    List (List Char × List Char)
  | [], p, c => [(p, c)]
  | (q, c0) :: rest, p, c =>
    if q = p then (p, c) :: rest else (q, c0) :: fsWriteStr rest p c

def lookupStr : List (List Char × List Char) → List Char → Option (List Char)
  | [], _ => none
  | (q, c) :: rest, p => if q = p then some c else lookupStr rest p

/-- `Nat.repr` of a coordinate, as characters. -/
def natToChars (n : Nat) : List Char :=
  (Nat.repr n).data

/-- One JSON-escaped character under `ensure_ascii=False`: only the quote,
the backslash and control characters are escaped (with the usual short
forms), every other character — non-ASCII included — is emitted
verbatim. -/
def escapeJsonChar (c : Char) : List Char :=
  if c = '"' then ['\\', '"']
  else if c = '\\' then ['\\', '\\']
  else if c = '\n' then ['\\', 'n']
  else if c = '\t' then ['\\', 't']
  else if c = '\r' then ['\\', 'r']
  else if c = '\x08' then ['\\', 'b']
  else if c = '\x0c' then ['\\', 'f']
  else if c.toNat < 32 then
    ['\\', 'u', '0', '0',
     (if c.toNat / 16 < 10 then Char.ofNat (48 + c.toNat / 16)
      else Char.ofNat (87 + c.toNat / 16)),
     (if c.toNat % 16 < 10 then Char.ofNat (48 + c.toNat % 16)
      else Char.ofNat (87 + c.toNat % 16))]
  else [c]

/-- A JSON string literal under `ensure_ascii=False`. -/
def jsonStr (s : List Char) : List Char :=
  '"' :: concatMap escapeJsonChar s ++ ['"']

/-- A newline followed by the 4-space indentation of `indent=4` at the
given depth. -/
def jsonNl (depth : Nat) : List Char :=
  '\n' :: List.replicate (4 * depth) ' '

def joinSep (sep : List Char) : List (List Char) → List Char
  | [] => []
  | [x] => x
  | x :: xs => x ++ sep ++ joinSep sep xs

/-- A point object `{"x": ..., "y": ...}` as `json.dump(..., indent=4)`
prints it at the given depth. -/
def serializePoint (depth : Nat) (pt : Nat × Nat) : List Char :=
  "\x7b".data ++ jsonNl (depth + 1) ++ "\"x\": ".data ++ natToChars pt.1 ++
  ",".data ++ jsonNl (depth + 1) ++ "\"y\": ".data ++ natToChars pt.2 ++
  jsonNl depth ++ "\x7d".data

/-- A list of point objects as `json.dump(..., indent=4)` prints it
(empty lists print inline as `[]`). -/
def serializePointList (depth : Nat) (pts : List (Nat × Nat)) : List Char :=
  match pts with
  | [] => "[]".data
  | _ =>
    "[".data ++ jsonNl (depth + 1) ++
    joinSep (",".data ++ jsonNl (depth + 1))
      (pts.map (serializePoint (depth + 1))) ++
    jsonNl depth ++ "]".data

/-- The exact text `json.dump(data, f, indent=4, ensure_ascii=False)`
writes for the record of `save_coordinates_to_json` (keys in insertion
order, 4-space indentation, non-ASCII characters preserved). -/
def serializeRecordJson (frame1 frame2 : List Char)
    (mask src tgt : List (Nat × Nat)) : List Char :=
  "\x7b".data ++ jsonNl 1 ++ "\"frame1_image\": ".data ++ jsonStr frame1 ++
  ",".data ++ jsonNl 1 ++ "\"frame2_image\": ".data ++ jsonStr frame2 ++
  ",".data ++ jsonNl 1 ++ "\"mask_area\": ".data ++ serializePointList 1 mask ++
  ",".data ++ jsonNl 1 ++ "\"source_points\": ".data ++ serializePointList 1 src ++
  ",".data ++ jsonNl 1 ++ "\"target_points\": ".data ++ serializePointList 1 tgt ++
  jsonNl 0 ++ "\x7d".data

/-- The validation messages of the save action's four gates. -/
inductive SaveError where
  | missingFrames
  | maskNotFour
  | missingPoints
  | mismatchedCounts
deriving DecidableEq

/-- `save_coordinates_to_json` (drag_generator.py lines 1037–1083) over an
abstract path→content store: the four validation gates (each reporting its
own message and writing nothing), then the output-path construction
`drag_data_<base1>_to_<base2>.json` next to frame 1 and the
`json.dump(..., indent=4, ensure_ascii=False)` write. -/
def save_coordinates_to_json (st : AnnotationState)
    (fs : List (List Char × List Char)) :
    List (List Char × List Char) × Option SaveError :=
  if !(pyTruthyPath st.image_path_frame1 && pyTruthyPath st.image_path_frame2) then
    (fs, some .missingFrames)
  else if st.mask_points_on_combined.length != 4 then
    (fs, some .maskNotFour)
  else if st.source_points_on_frame1.isEmpty || st.target_points_on_frame2.isEmpty then
    (fs, some .missingPoints)
  else if st.source_points_on_frame1.length != st.target_points_on_frame2.length then
    (fs, some .mismatchedCounts)
  else
    let f1 := st.image_path_frame1.getD []
    let f2 := st.image_path_frame2.getD []
    let base1 := splitextStem (posixBasename f1)
    let base2 := splitextStem (posixBasename f2)
    let outputFileName :=
      "drag_data_".data ++ base1 ++ "_to_".data ++ base2 ++ ".json".data
    let outputPath := posixJoin (posixDirname f1) outputFileName
    let content := serializeRecordJson (posixBasename f1) (posixBasename f2)
      st.mask_points_on_combined st.source_points_on_frame1
      st.target_points_on_frame2
    (fsWriteStr fs outputPath content, none)

/-- The output path of §4.5 `save` as the spec words it:
`<folderOf(frame1)>/drag_data_<base(frame1)>_to_<base(frame2)>.json`, the
bases being the frame file names without extension. -/
def specSavePath (f1 f2 : List Char) : List Char :=
  posixJoin (posixDirname f1)
    ("drag_data_".data ++ splitextStem (posixBasename f1) ++ "_to_".data ++
     splitextStem (posixBasename f2) ++ ".json".data)

theorem fsWriteStr_keys_idem (fs : List (List Char × List Char))
    (p c c' : List Char) :
    (fsWriteStr (fsWriteStr fs p c) p c').map Prod.fst =
      (fsWriteStr fs p c).map Prod.fst := by
  induction fs with
  | nil => simp [fsWriteStr]
  | cons qc rest ih =>
    obtain ⟨q, c0⟩ := qc
    by_cases hq : q = p
    · simp [fsWriteStr, hq]
    · simp [fsWriteStr, hq, ih]

theorem lookupStr_fsWriteStr (fs : List (List Char × List Char))
    (p c : List Char) :
    lookupStr (fsWriteStr fs p c) p = some c := by
  induction fs with
  | nil => simp [fsWriteStr, lookupStr]
  | cons qc rest ih =>
    obtain ⟨q, c0⟩ := qc
    by_cases hq : q = p
    · simp [fsWriteStr, hq, lookupStr]
    · simp [fsWriteStr, hq, lookupStr, ih]

/-- When the save gate holds, the save action performs exactly one
replace-or-add write at the pair-derived path. -/
theorem save_coordinates_writes (st : AnnotationState)
    (fs : List (List Char × List Char)) (f1 f2 : List Char)
    (h1 : st.image_path_frame1 = some f1) (h2 : st.image_path_frame2 = some f2)
    (hready : check_save_button_status st = true) :
    save_coordinates_to_json st fs =
      (fsWriteStr fs (specSavePath f1 f2)
        (serializeRecordJson (posixBasename f1) (posixBasename f2)
          st.mask_points_on_combined st.source_points_on_frame1
          st.target_points_on_frame2), none) := by
  unfold check_save_button_status at hready
  simp only [Bool.and_eq_true, beq_iff_eq, decide_eq_true_eq] at hready
  obtain ⟨⟨⟨⟨ht1, ht2⟩, hm⟩, hs⟩, hst⟩ := hready
  have c1 : (!(pyTruthyPath st.image_path_frame1 &&
      pyTruthyPath st.image_path_frame2)) = false := by
    simp [ht1, ht2]
  have c2 : (st.mask_points_on_combined.length != 4) = false := by
    simp [hm]
  have hsrcne : st.source_points_on_frame1.isEmpty = false := by
    cases hsp : st.source_points_on_frame1 with
    | nil => rw [hsp] at hs; simp at hs
    | cons a as => simp
  have htgtne : st.target_points_on_frame2.isEmpty = false := by
    cases htp : st.target_points_on_frame2 with
    | nil => rw [htp] at hst; simp only [List.length_nil] at hst; omega
    | cons a as => simp
  have c3 : (st.source_points_on_frame1.isEmpty ||
      st.target_points_on_frame2.isEmpty) = false := by
    simp [hsrcne, htgtne]
  have c4 : (st.source_points_on_frame1.length !=
      st.target_points_on_frame2.length) = false := by
    simp [hst]
  unfold save_coordinates_to_json
  rw [c1, c2, c3, c4]
  simp only [Bool.false_eq_true, if_false, h1, h2, Option.getD_some]
  rfl

/-- C7: with the save gate satisfied, saving writes the record serialized
as UTF-8 JSON with 4-space indentation and non-ASCII preserved
(`serializeRecordJson`) to
`<folderOf(frame1)>/drag_data_<base(frame1)>_to_<base(frame2)>.json`
(`specSavePath`); and saving the same frame pair a second time writes to
the very same path — the store's path set is unchanged (no second file)
and the stored content at that path becomes the second record. -/
theorem save_coordinates_path_and_overwrite
    (st st' : AnnotationState) (fs : List (List Char × List Char))
    (f1 f2 : List Char)
    (h1 : st.image_path_frame1 = some f1) (h2 : st.image_path_frame2 = some f2)
    (h1' : st'.image_path_frame1 = some f1)
    (h2' : st'.image_path_frame2 = some f2)
    (hready : check_save_button_status st = true)
    (hready' : check_save_button_status st' = true) :
    save_coordinates_to_json st fs =
      (fsWriteStr fs (specSavePath f1 f2)
        (serializeRecordJson (posixBasename f1) (posixBasename f2)
          st.mask_points_on_combined st.source_points_on_frame1
          st.target_points_on_frame2), none) ∧
    ((save_coordinates_to_json st' (save_coordinates_to_json st fs).1).1.map
        Prod.fst =
      (save_coordinates_to_json st fs).1.map Prod.fst) ∧
    lookupStr (save_coordinates_to_json st' (save_coordinates_to_json st fs).1).1
        (specSavePath f1 f2) =
      some (serializeRecordJson (posixBasename f1) (posixBasename f2)
        st'.mask_points_on_combined st'.source_points_on_frame1
        st'.target_points_on_frame2) := by
  have hw := save_coordinates_writes st fs f1 f2 h1 h2 hready
  refine ⟨hw, ?_, ?_⟩
  · rw [hw]
    rw [save_coordinates_writes st'
      (fsWriteStr fs (specSavePath f1 f2)
        (serializeRecordJson (posixBasename f1) (posixBasename f2)
          st.mask_points_on_combined st.source_points_on_frame1
          st.target_points_on_frame2)) f1 f2 h1' h2' hready']
    exact fsWriteStr_keys_idem fs _ _ _
  · rw [hw]
    rw [save_coordinates_writes st'
      (fsWriteStr fs (specSavePath f1 f2)
        (serializeRecordJson (posixBasename f1) (posixBasename f2)
          st.mask_points_on_combined st.source_points_on_frame1
          st.target_points_on_frame2)) f1 f2 h1' h2' hready']
    exact lookupStr_fsWriteStr _ _ _

/-- C7 witness: two saves of the same frame pair (`a/f1.png`, `a/f2.png`)
on an initially empty store: the first write lands at the derived path,
the second keeps the path set and replaces the content. -/
theorem save_coordinates_path_and_overwrite_witness :
    save_coordinates_to_json
        ⟨some "a/f1.png".data, some "a/f2.png".data,
         [(0,0),(9,0),(9,9),(0,9)], [(1,1)], [(2,2)]⟩ [] =
      (fsWriteStr [] (specSavePath "a/f1.png".data "a/f2.png".data)
        (serializeRecordJson (posixBasename "a/f1.png".data)
          (posixBasename "a/f2.png".data)
          [(0,0),(9,0),(9,9),(0,9)] [(1,1)] [(2,2)]), none) ∧
    ((save_coordinates_to_json
        ⟨some "a/f1.png".data, some "a/f2.png".data,
         [(0,0),(9,0),(9,9),(0,9)], [(3,3)], [(4,4)]⟩
        (save_coordinates_to_json
          ⟨some "a/f1.png".data, some "a/f2.png".data,
           [(0,0),(9,0),(9,9),(0,9)], [(1,1)], [(2,2)]⟩ []).1).1.map
        Prod.fst =
      (save_coordinates_to_json
        ⟨some "a/f1.png".data, some "a/f2.png".data,
         [(0,0),(9,0),(9,9),(0,9)], [(1,1)], [(2,2)]⟩ []).1.map Prod.fst) ∧
    lookupStr (save_coordinates_to_json
        ⟨some "a/f1.png".data, some "a/f2.png".data,
         [(0,0),(9,0),(9,9),(0,9)], [(3,3)], [(4,4)]⟩
        (save_coordinates_to_json
          ⟨some "a/f1.png".data, some "a/f2.png".data,
           [(0,0),(9,0),(9,9),(0,9)], [(1,1)], [(2,2)]⟩ []).1).1
        (specSavePath "a/f1.png".data "a/f2.png".data) =
      some (serializeRecordJson (posixBasename "a/f1.png".data)
        (posixBasename "a/f2.png".data)
        [(0,0),(9,0),(9,9),(0,9)] [(3,3)] [(4,4)]) :=
  save_coordinates_path_and_overwrite
    ⟨some "a/f1.png".data, some "a/f2.png".data,
     [(0,0),(9,0),(9,9),(0,9)], [(1,1)], [(2,2)]⟩
    ⟨some "a/f1.png".data, some "a/f2.png".data,
     [(0,0),(9,0),(9,9),(0,9)], [(3,3)], [(4,4)]⟩
    [] "a/f1.png".data "a/f2.png".data rfl rfl rfl rfl
    (by decide) (by decide)

/-! ## Directory scanner (`scan_directory`, `ImageThumbnailWidget`) -/

/-- One `os.listdir` entry of a folder: its bare name and whether it is a
directory. -/
structure DirEntry where
  name : List Char
  isDir : Bool
deriving DecidableEq

/-- One `os.listdir` entry of the chosen root: its joined path, whether it
is a directory, and — when it is — its own listing. -/
structure RootEntry where
  path : List Char
  isDir : Bool
  listing : List DirEntry
deriving DecidableEq

/-- `IMAGE_EXTENSIONS` (drag_generator.py line 12). -/
def IMAGE_EXTENSIONS : List (List Char) :=
  [".png".data, ".jpg".data, ".jpeg".data, ".gif".data, ".bmp".data,
   ".tiff".data, ".webp".data]

/-- `any(file_name.lower().endswith(ext) for ext in IMAGE_EXTENSIONS)`:
a *name* test only — nothing checks that the entry is a regular file. -/
def hasImageExt (n : List Char) : Bool :=
  IMAGE_EXTENSIONS.any (fun ext => List.isSuffixOf ext (n.map Char.toLower))

/-- The image count of `scan_directory` (drag_generator.py lines 761–764):
the number of listing entries whose lowercased name carries an image
extension. -/
def countImageEntries (entries : List DirEntry) : Nat :=
  (entries.filter (fun e => hasImageExt e.name)).length

/-- `scan_directory` (drag_generator.py lines 757–769): keep each
subdirectory of the root whose image-name count exceeds 1 (the kept
folders become thumbnail widgets; we record their paths). -/
def scan_directory (root : List RootEntry) : List (List Char) :=
  (root.filter (fun f => f.isDir && decide (1 < countImageEntries f.listing))).map
    RootEntry.path

/-- Insertion into a sorted list (stable, keeps equal keys in order). -/
def insertSorted (le : α → α → Bool) (a : α) : List α → List α
  | [] => [a]
  | b :: bs => if le a b then a :: b :: bs else b :: insertSorted le a bs

/-- A stable sort; agrees with Python's stable `sorted` for a total
order. -/
def insertionSort (le : α → α → Bool) : List α → List α
  | [] => []
  | a :: as => insertSorted le a (insertionSort le as)

/-- Code-point lexicographic order on character lists (Python `str`
comparison). -/
def charListLe : List Char → List Char → Bool
  | [], _ => true
  | _ :: _, [] => false
  | a :: as, b :: bs =>
    if a < b then true else if b < a then false else charListLe as bs

/-- `ImageThumbnailWidget._get_image_paths` (drag_generator.py lines
489–495): join every image-named listing entry — directories included —
onto the folder path and sort. -/
def get_image_paths (folderPath : List Char) (listing : List DirEntry) :
    List (List Char) :=
  insertionSort charListLe
    ((listing.filter (fun e => hasImageExt e.name)).map
      (fun e => posixJoin folderPath e.name))

theorem mem_insertSorted {le : α → α → Bool} {a x : α} {l : List α} :
    x ∈ insertSorted le a l ↔ x = a ∨ x ∈ l := by
  induction l with
  | nil => simp [insertSorted]
  | cons b bs ih =>
    unfold insertSorted
    by_cases h : le a b = true
    · simp [h]
    · simp only [Bool.not_eq_true] at h
      simp [h, ih]
      tauto

theorem mem_insertionSort {le : α → α → Bool} {x : α} {l : List α} :
    x ∈ insertionSort le l ↔ x ∈ l := by
  induction l with
  | nil => simp [insertionSort]
  | cons a as ih =>
    simp [insertionSort, mem_insertSorted, ih]

theorem one_lt_length_of_two_mem {l : List α} {a b : α}
    (ha : a ∈ l) (hb : b ∈ l) (hne : a ≠ b) : 1 < l.length := by
  cases l with
  | nil => cases ha
  | cons x xs =>
    cases xs with
    | nil =>
      rw [List.mem_singleton] at ha hb
      exact absurd (ha.trans hb.symm) hne
    | cons y ys =>
      simp only [List.length_cons]
      omega

/-- C9: the scanner's image count is a pure name test — an entry that is a
*directory* with an image-extension name is counted like a file.  A folder
holding an image file and such a subdirectory therefore has count > 1, is
accepted by `scan_directory`, and the subdirectory's joined path appears
in the sorted per-folder image list. -/
theorem scan_directory_counts_directories
    (root : List RootEntry) (folder : RootEntry) (f d : DirEntry)
    (hfolder : folder ∈ root) (hdir : folder.isDir = true)
    (hf : f ∈ folder.listing) (hd : d ∈ folder.listing)
    (hffile : f.isDir = false) (hddir : d.isDir = true)
    (hfext : hasImageExt f.name = true) (hdext : hasImageExt d.name = true) :
    1 < countImageEntries folder.listing ∧
    folder.path ∈ scan_directory root ∧
    posixJoin folder.path d.name ∈ get_image_paths folder.path folder.listing := by
  have hfin : f ∈ folder.listing.filter (fun e => hasImageExt e.name) :=
    List.mem_filter.2 ⟨hf, hfext⟩
  have hdin : d ∈ folder.listing.filter (fun e => hasImageExt e.name) :=
    List.mem_filter.2 ⟨hd, hdext⟩
  have hne : f ≠ d := by
    intro h
    rw [h, hddir] at hffile
    cases hffile
  have hcount : 1 < countImageEntries folder.listing :=
    one_lt_length_of_two_mem hfin hdin hne
  refine ⟨hcount, ?_, ?_⟩
  · unfold scan_directory
    exact List.mem_map_of_mem _
      (List.mem_filter.2 ⟨hfolder, by simp [hdir, hcount]⟩)
  · unfold get_image_paths
    rw [mem_insertionSort]
    exact List.mem_map_of_mem _ hdin

/-- C9 witness: a folder holding the image file `a.png` and a
subdirectory named `b.jpg` is accepted and the subdirectory's path is
listed among its images. -/
theorem scan_directory_counts_directories_witness :
    1 < countImageEntries [⟨"a.png".data, false⟩, ⟨"b.jpg".data, true⟩] ∧
    "root/sub".data ∈ scan_directory
      [⟨"root/sub".data, true,
        [⟨"a.png".data, false⟩, ⟨"b.jpg".data, true⟩]⟩] ∧
    posixJoin "root/sub".data "b.jpg".data ∈
      get_image_paths "root/sub".data
        [⟨"a.png".data, false⟩, ⟨"b.jpg".data, true⟩] :=
  scan_directory_counts_directories
    [⟨"root/sub".data, true, [⟨"a.png".data, false⟩, ⟨"b.jpg".data, true⟩]⟩]
    ⟨"root/sub".data, true, [⟨"a.png".data, false⟩, ⟨"b.jpg".data, true⟩]⟩
    ⟨"a.png".data, false⟩ ⟨"b.jpg".data, true⟩
    (by decide) rfl (by decide) (by decide) rfl rfl (by decide) (by decide)

end Drag
